import Mathlib

/-!
Shallow embedding of the clinic scheduling frontend logic: the slot
resolver of the agenda page (slot closures, slot occupancy, the booking
gate, working-day navigation) and the patient-roster filters and
status-change handlers of the patients page.

Modelling conventions:
* Calendar dates are day numbers (`Nat`); the epoch (day 0) is a Monday,
  so a day `d` is a Saturday or Sunday exactly when `d % 7` is 5 or 6.
  The string round-trip through the date formatter is the identity on day
  numbers, and a holiday list is a list of day numbers.
* JavaScript nullable fields (`cs.ora`, `cs.tipo`) become `Option String`,
  with `none` for unset; JS falsiness of a form string field becomes
  equality with the empty string.
* Handlers that either show an error and return, or issue an HTTP request,
  become functions into an enumerated result or an `Option` of the request
  body they would send.
-/

namespace Clinic

/-- Closure record as fetched from the closed-slots endpoint: optional
time slot (`none` = whole day), optional treatment type (`none` = both
types), date and free-text reason. -/
structure ClosedSlot where
  id : Nat
  ora : Option String
  tipo : Option String
  data : String
  motivo : String
deriving DecidableEq, Repr

/-- Appointment as fetched from the appointments endpoint. -/
structure Appointment where
  id : Nat
  patient_id : Nat
  data : String
  ora : String
  tipo : String
deriving DecidableEq, Repr

/-- Patient as fetched from the patients endpoint. -/
structure Patient where
  id : Nat
  nome : String
  cognome : String
  tipo : String
deriving DecidableEq, Repr

/-- The callback body shared by `isSlotClosed` and `getClosedSlotInfo`
in AgendaPage.jsx: the four-branch wildcard test against one record. -/
def closureMatches (ora tipo : String) (cs : ClosedSlot) : Bool :=
  if cs.ora = none ∧ cs.tipo = none then true
  else if cs.ora = none ∧ cs.tipo = some tipo then true
  else if cs.ora = some ora ∧ cs.tipo = none then true
  else if cs.ora = some ora ∧ cs.tipo = some tipo then true
  else false

/-- Embeds `isSlotClosed` of AgendaPage.jsx: `closedSlots.some` of the
wildcard test. -/
def isSlotClosed (ora tipo : String) (closedSlots : List ClosedSlot) : Bool :=
  closedSlots.any (closureMatches ora tipo)

/-- Embeds `getClosedSlotInfo` of AgendaPage.jsx: `closedSlots.find` of
the same wildcard test. -/
def getClosedSlotInfo (ora tipo : String) (closedSlots : List ClosedSlot) :
    Option ClosedSlot :=
  closedSlots.find? (closureMatches ora tipo)

theorem closureMatches_iff (ora tipo : String) (cs : ClosedSlot) :
    closureMatches ora tipo cs = true ↔
      (cs.ora = none ∨ cs.ora = some ora) ∧ (cs.tipo = none ∨ cs.tipo = some tipo) := by
  rcases cs with ⟨i, o, t, da, mo⟩
  unfold closureMatches
  rcases o with _ | ho <;> rcases t with _ | ht <;> simp

/-- C1: a slot (hour, type) is closed iff some record in the list has
an unset or equal hour and an unset or equal type; a record with both
fields unset closes every slot, a type-only record closes that type at
every hour but not another type, and an hour-only record closes both
types at that hour. -/
theorem C1_isSlotClosed_wildcard (L : List ClosedSlot) (ora tipo : String) :
    (isSlotClosed ora tipo L = true ↔
      ∃ cs ∈ L, (cs.ora = none ∨ cs.ora = some ora) ∧
        (cs.tipo = none ∨ cs.tipo = some tipo)) ∧
    (∀ cs ∈ L, cs.ora = none → cs.tipo = none → isSlotClosed ora tipo L = true) ∧
    (∀ i da mo, isSlotClosed ora tipo [⟨i, none, some tipo, da, mo⟩] = true) ∧
    (∀ t2 i da mo, t2 ≠ tipo →
      isSlotClosed ora t2 [⟨i, none, some tipo, da, mo⟩] = false) ∧
    (∀ t2 i da mo, isSlotClosed ora t2 [⟨i, some ora, none, da, mo⟩] = true) := by
  refine ⟨?_, ?_, ?_, ?_, ?_⟩
  · rw [isSlotClosed, List.any_eq_true]
    constructor
    · rintro ⟨cs, hm, hc⟩
      exact ⟨cs, hm, (closureMatches_iff ora tipo cs).mp hc⟩
    · rintro ⟨cs, hm, hc⟩
      exact ⟨cs, hm, (closureMatches_iff ora tipo cs).mpr hc⟩
  · intro cs hm ho ht
    rw [isSlotClosed, List.any_eq_true]
    exact ⟨cs, hm, (closureMatches_iff ora tipo cs).mpr ⟨Or.inl ho, Or.inl ht⟩⟩
  · intro i da mo
    simp [isSlotClosed, closureMatches]
  · intro t2 i da mo h
    simp [isSlotClosed, closureMatches]
    exact fun hc => absurd hc.symm h
  · intro t2 i da mo
    simp [isSlotClosed, closureMatches]

/-- C1 witness: a type-only PICC record does not close a MED slot. -/
theorem C1_isSlotClosed_wildcard_witness :
    isSlotClosed "09:00" "MED" [⟨1, none, some "PICC", "2025-01-15", "m"⟩] = false :=
  (C1_isSlotClosed_wildcard [] "09:00" "PICC").2.2.2.1 "MED" 1 "2025-01-15" "m"
    (by decide)

theorem find_first_index {α : Type} (p : α → Bool) :
    ∀ (L : List α) (r : α), L.find? p = some r →
      ∃ i, ∃ hi : i < L.length, L.get ⟨i, hi⟩ = r ∧
        ∀ j, ∀ hj : j < L.length, j < i → p (L.get ⟨j, hj⟩) = false := by
  intro L
  induction L with
  | nil => intro r hr; simp at hr
  | cons a as ih =>
    intro r hr
    rw [List.find?_cons] at hr
    cases hca : p a with
    | true =>
      rw [hca] at hr
      simp only [cond_true, Option.some.injEq] at hr
      subst hr
      exact ⟨0, by simp, by simp, fun j hj hji => absurd hji (by omega)⟩
    | false =>
      rw [hca] at hr
      simp only [cond_false] at hr
      obtain ⟨i, hi, hget, hfirst⟩ := ih r hr
      refine ⟨i + 1, by simpa using hi, by simpa using hget, ?_⟩
      intro j hj hji
      cases j with
      | zero => simpa using hca
      | succ j =>
        have hj2 : j < as.length := by simpa using hj
        have := hfirst j hj2 (by omega)
        simpa using this

/-- C6: getClosedSlotInfo returns none exactly when no record matches,
and otherwise returns the first matching record in input order. -/
theorem C6_getClosedSlotInfo_first (ora tipo : String) (L : List ClosedSlot) :
    (getClosedSlotInfo ora tipo L = none ↔
      ∀ cs ∈ L, closureMatches ora tipo cs = false) ∧
    (∀ r, getClosedSlotInfo ora tipo L = some r →
      closureMatches ora tipo r = true ∧
      ∃ i, ∃ hi : i < L.length, L.get ⟨i, hi⟩ = r ∧
        ∀ j, ∀ hj : j < L.length, j < i →
          closureMatches ora tipo (L.get ⟨j, hj⟩) = false) := by
  constructor
  · rw [getClosedSlotInfo, List.find?_eq_none]
    constructor
    · intro h cs hm
      exact Bool.eq_false_iff.mpr (h cs hm)
    · intro h cs hm
      rw [h cs hm]; simp
  · intro r hr
    exact ⟨List.find?_some hr, find_first_index (closureMatches ora tipo) L r hr⟩

/-- C6 witness: on the empty list no record matches and the result is
none. -/
theorem C6_getClosedSlotInfo_first_witness :
    getClosedSlotInfo "09:00" "PICC" [] = none :=
  (C6_getClosedSlotInfo_first "09:00" "PICC" []).1.mpr (by decide)

/-- Embeds `getAppointmentsForSlot` of AgendaPage.jsx: the filter keeps
an appointment when its `ora` and `tipo` equal the requested slot; the
date is not examined (the appointments list is fetched for one day). -/
def getAppointmentsForSlot (ora tipo : String) (appointments : List Appointment) :
    List Appointment :=
  appointments.filter (fun a => a.ora == ora && a.tipo == tipo)

/-- Formalises the claimed contract: an exact filter by all three keys,
date included. Written from the claim for comparison with
`getAppointmentsForSlot`. -/
def appointmentsForSlotSpec (data ora tipo : String)
    (appointments : List Appointment) : List Appointment :=
  appointments.filter (fun a => a.data == data && a.ora == ora && a.tipo == tipo)

/-- C3 counterexample: with an appointment whose date differs from the
requested date, the code keeps it while the three-key filter drops it,
so the two functions differ on this input. -/
theorem C3_threeKeyFilter_cex :
    ¬ (getAppointmentsForSlot "09:00" "PICC"
        [⟨1, 1, "2025-01-16", "09:00", "PICC"⟩] =
      appointmentsForSlotSpec "2025-01-15" "09:00" "PICC"
        [⟨1, 1, "2025-01-16", "09:00", "PICC"⟩]) := by
  decide

/-- C3 amended: getAppointmentsForSlot filters by hour and type only —
membership in the result means membership in the input with equal hour
and type — and it coincides with the exact three-key filter exactly on
lists already pre-filtered to the requested date. -/
theorem C3_hourTypeFilter (data ora tipo : String) (apts : List Appointment)
    (a : Appointment) (hpre : ∀ x ∈ apts, x.data = data) :
    (a ∈ getAppointmentsForSlot ora tipo apts ↔
      a ∈ apts ∧ a.ora = ora ∧ a.tipo = tipo) ∧
    getAppointmentsForSlot ora tipo apts = appointmentsForSlotSpec data ora tipo apts := by
  constructor
  · rw [getAppointmentsForSlot, List.mem_filter]
    simp [Bool.and_eq_true, beq_iff_eq, and_assoc]
  · rw [getAppointmentsForSlot, appointmentsForSlotSpec]
    apply List.filter_congr
    intro x hx
    have hd : x.data = data := hpre x hx
    simp [hd]

/-- C3 amended witness: on a one-element list carrying the requested
date, membership and the three-key agreement hold concretely. -/
theorem C3_hourTypeFilter_witness :
    (⟨1, 1, "2025-01-15", "09:00", "PICC"⟩ : Appointment) ∈
      getAppointmentsForSlot "09:00" "PICC"
        [⟨1, 1, "2025-01-15", "09:00", "PICC"⟩] ↔
      (⟨1, 1, "2025-01-15", "09:00", "PICC"⟩ : Appointment) ∈
        [(⟨1, 1, "2025-01-15", "09:00", "PICC"⟩ : Appointment)] ∧
      ("09:00" : String) = "09:00" ∧ ("PICC" : String) = "PICC" :=
  (C3_hourTypeFilter "2025-01-15" "09:00" "PICC"
    [⟨1, 1, "2025-01-15", "09:00", "PICC"⟩]
    ⟨1, 1, "2025-01-15", "09:00", "PICC"⟩ (by decide)).1

/-- Date arithmetic: day numbers with day 0 a Monday, so the weekend
test of date-fns becomes a residue test mod 7. -/
def isWeekend (d : Nat) : Bool :=
  d % 7 == 5 || d % 7 == 6

/-- The non-working-day test used by `isHoliday`, `getNextWorkingDay`
and the prev/next navigation in AgendaPage.jsx: weekend or member of the
holiday list. -/
def isNonWorkingDay (holidays : List Nat) (d : Nat) : Bool :=
  isWeekend d || holidays.contains d

/-- Booking-gate outcome of a click on a slot cell. -/
inductive SlotClickResult where
  | nonWorkingDay : SlotClickResult
  | slotClosed : SlotClickResult
  | slotFull : SlotClickResult
  | openBooking : SlotClickResult
deriving DecidableEq, Repr

/-- Embeds `handleSlotClick` of AgendaPage.jsx: return on a holiday or
weekend, else open the reopen dialog when the slot is closed, else show
the slot-full error when two appointments already hold the slot, else
open the booking dialog. -/
def handleSlotClick (currentDate : Nat) (holidays : List Nat)
    (closedSlots : List ClosedSlot) (appointments : List Appointment)
    (ora tipo : String) : SlotClickResult :=
  if isNonWorkingDay holidays currentDate then .nonWorkingDay
  else if isSlotClosed ora tipo closedSlots then .slotClosed
  else if 2 ≤ (getAppointmentsForSlot ora tipo appointments).length then .slotFull
  else .openBooking

/-- C2: the booking gate applies its three checks in order — a
non-working day wins over everything, then slot closure, then slot
occupancy of two or more appointments, and only otherwise does the
booking flow open; with two or more appointments booking is never
permitted. -/
theorem C2_handleSlotClick_gate (d : Nat) (hol : List Nat)
    (cls : List ClosedSlot) (apts : List Appointment) (ora tipo : String) :
    (isNonWorkingDay hol d = true →
      handleSlotClick d hol cls apts ora tipo = .nonWorkingDay) ∧
    (isNonWorkingDay hol d = false → isSlotClosed ora tipo cls = true →
      handleSlotClick d hol cls apts ora tipo = .slotClosed) ∧
    (isNonWorkingDay hol d = false → isSlotClosed ora tipo cls = false →
      2 ≤ (getAppointmentsForSlot ora tipo apts).length →
      handleSlotClick d hol cls apts ora tipo = .slotFull) ∧
    (isNonWorkingDay hol d = false → isSlotClosed ora tipo cls = false →
      (getAppointmentsForSlot ora tipo apts).length < 2 →
      handleSlotClick d hol cls apts ora tipo = .openBooking) ∧
    (2 ≤ (getAppointmentsForSlot ora tipo apts).length →
      handleSlotClick d hol cls apts ora tipo ≠ .openBooking) := by
  refine ⟨?_, ?_, ?_, ?_, ?_⟩
  · intro h1; simp [handleSlotClick, h1]
  · intro h1 h2; simp [handleSlotClick, h1, h2]
  · intro h1 h2 h3; simp [handleSlotClick, h1, h2, h3]
  · intro h1 h2 h3; simp [handleSlotClick, h1, h2, Nat.not_le.mpr h3]
  · intro h3
    rw [handleSlotClick]
    by_cases hnw : isNonWorkingDay hol d = true
    · simp [hnw]
    · by_cases hcl : isSlotClosed ora tipo cls = true
      · simp [hnw, hcl]
      · simp [hnw, hcl, h3]

/-- C2 witness: day 5 (a Saturday) with empty data is rejected as a
non-working day. -/
theorem C2_handleSlotClick_gate_witness :
    handleSlotClick 5 [] [] [] "08:30" "PICC" = SlotClickResult.nonWorkingDay :=
  (C2_handleSlotClick_gate 5 [] [] [] "08:30" "PICC").1 (by decide)

/-- Modelled from the spec: the backend handler of
DELETE /closed-slots/slotId invoked by `handleReopenSlot`, not part of
the frontend sources — it removes the closure record with the given id,
and the refetched day list is the previous list without that record. -/
def deleteClosedSlot (slotId : Nat) (closedSlots : List ClosedSlot) :
    List ClosedSlot :=
  closedSlots.filter (fun cs => cs.id ≠ slotId)

/-- C5: closing an open slot (hour, type) by appending a record for
exactly that slot makes it closed, and deleting that record again
restores the original list, so isSlotClosed agrees with the original
list everywhere and the slot is open again. -/
theorem C5_closure_roundTrip (L : List ClosedSlot) (h t : String)
    (r : ClosedSlot) (hora : r.ora = some h) (htipo : r.tipo = some t)
    (hfresh : ∀ cs ∈ L, cs.id ≠ r.id)
    (hopen : isSlotClosed h t L = false) :
    isSlotClosed h t (L ++ [r]) = true ∧
    deleteClosedSlot r.id (L ++ [r]) = L ∧
    (∀ h2 t2, isSlotClosed h2 t2 (deleteClosedSlot r.id (L ++ [r])) =
      isSlotClosed h2 t2 L) ∧
    isSlotClosed h t (deleteClosedSlot r.id (L ++ [r])) = false := by
  have hdel : deleteClosedSlot r.id (L ++ [r]) = L := by
    rw [deleteClosedSlot, List.filter_append]
    have h1 : L.filter (fun cs => cs.id ≠ r.id) = L := by
      apply List.filter_eq_self.mpr
      intro cs hcs
      simpa using hfresh cs hcs
    have h2 : [r].filter (fun cs => cs.id ≠ r.id) = [] := by
      simp
    rw [h1, h2, List.append_nil]
  refine ⟨?_, hdel, ?_, ?_⟩
  · rw [isSlotClosed, List.any_eq_true]
    refine ⟨r, by simp, ?_⟩
    apply (closureMatches_iff h t r).mpr
    exact ⟨Or.inr hora, Or.inr htipo⟩
  · intro h2 t2; rw [hdel]
  · rw [hdel]; exact hopen

/-- C5 witness: a MED whole-day-for-type record leaves (09:00, PICC)
open; appending and deleting a specific PICC record round-trips. -/
theorem C5_closure_roundTrip_witness :
    isSlotClosed "09:00" "PICC"
      ([⟨1, none, some "MED", "2025-01-15", "m"⟩] ++
        [⟨2, some "09:00", some "PICC", "2025-01-15", "x"⟩]) = true ∧
    deleteClosedSlot 2
      ([⟨1, none, some "MED", "2025-01-15", "m"⟩] ++
        [⟨2, some "09:00", some "PICC", "2025-01-15", "x"⟩]) =
      [⟨1, none, some "MED", "2025-01-15", "m"⟩] ∧
    (∀ h2 t2, isSlotClosed h2 t2
      (deleteClosedSlot 2
        ([⟨1, none, some "MED", "2025-01-15", "m"⟩] ++
          [⟨2, some "09:00", some "PICC", "2025-01-15", "x"⟩])) =
      isSlotClosed h2 t2 [⟨1, none, some "MED", "2025-01-15", "m"⟩]) ∧
    isSlotClosed "09:00" "PICC"
      (deleteClosedSlot 2
        ([⟨1, none, some "MED", "2025-01-15", "m"⟩] ++
          [⟨2, some "09:00", some "PICC", "2025-01-15", "x"⟩])) = false :=
  C5_closure_roundTrip [⟨1, none, some "MED", "2025-01-15", "m"⟩]
    "09:00" "PICC" ⟨2, some "09:00", some "PICC", "2025-01-15", "x"⟩
    rfl rfl (by decide) (by decide)

/-- Fuel-indexed form of the while loop in `getNextWorkingDay` of
AgendaPage.jsx: advance one day at a time while the day is a weekend or
a holiday; with fuel 0 the loop is cut off and the current day returned. -/
def getNextWorkingDayFuel (holidays : List Nat) : Nat → Nat → Nat
  | 0, d => d
  | fuel + 1, d =>
    if isNonWorkingDay holidays d then getNextWorkingDayFuel holidays fuel (d + 1)
    else d

/-- Upper bound of a holiday list, used to budget the loop fuel. -/
def holidayBound (holidays : List Nat) : Nat :=
  holidays.foldr max 0

/-- Embeds `getNextWorkingDay` of AgendaPage.jsx; the fuel proved
sufficient below, so this computes the exit value of the source loop. -/
def getNextWorkingDay (holidays : List Nat) (d : Nat) : Nat :=
  getNextWorkingDayFuel holidays (holidayBound holidays + 8) d

theorem le_holidayBound (holidays : List Nat) :
    ∀ h ∈ holidays, h ≤ holidayBound holidays := by
  induction holidays with
  | nil => simp
  | cons a as ih =>
    intro h hmem
    simp only [holidayBound, List.foldr_cons]
    rcases List.mem_cons.mp hmem with he | hm
    · subst he; exact le_max_left _ _
    · exact le_trans (ih h hm) (le_max_right _ _)

theorem getNextWorkingDayFuel_reaches (holidays : List Nat) :
    ∀ fuel d k, k ≤ fuel →
      (∀ j, j < k → isNonWorkingDay holidays (d + j) = true) →
      isNonWorkingDay holidays (d + k) = false →
      getNextWorkingDayFuel holidays fuel d = d + k := by
  intro fuel
  induction fuel with
  | zero =>
    intro d k hk hbefore hat
    have hk0 : k = 0 := by omega
    subst hk0
    simp [getNextWorkingDayFuel]
  | succ fuel ih =>
    intro d k hk hbefore hat
    cases k with
    | zero =>
      have hat2 : isNonWorkingDay holidays d = false := by simpa using hat
      simp [getNextWorkingDayFuel, hat2]
    | succ m =>
      have h0 : isNonWorkingDay holidays d = true := by
        simpa using hbefore 0 (by omega)
      have harg : ∀ j, j < m → isNonWorkingDay holidays (d + 1 + j) = true := by
        intro j hj
        have h2 := hbefore (j + 1) (by omega)
        have heq : d + (j + 1) = d + 1 + j := by omega
        rw [heq] at h2
        exact h2
      have hat2 : isNonWorkingDay holidays (d + 1 + m) = false := by
        have heq : d + (m + 1) = d + 1 + m := by omega
        rw [heq] at hat
        exact hat
      have hres := ih (d + 1) m (by omega) harg hat2
      simp only [getNextWorkingDayFuel, if_pos h0]
      rw [hres]
      omega

theorem exists_working_le (holidays : List Nat) (d : Nat) :
    ∃ k, k ≤ holidayBound holidays + 8 ∧
      isNonWorkingDay holidays (d + k) = false := by
  obtain ⟨M, hM⟩ : ∃ M, M = holidayBound holidays := ⟨_, rfl⟩
  obtain ⟨x, hx⟩ : ∃ x, x = max d (M + 1) := ⟨_, rfl⟩
  obtain ⟨n, hn⟩ : ∃ n, n = 7 * (x / 7) + 7 := ⟨_, rfl⟩
  have hxd : d ≤ x := hx ▸ le_max_left _ _
  have hxM : M + 1 ≤ x := hx ▸ le_max_right _ _
  have hxle : x ≤ d + (M + 1) := hx ▸ max_le (by omega) (by omega)
  have hnx : x < n := by omega
  have hn7 : n % 7 = 0 := by omega
  have hweek : isWeekend n = false := by
    rw [isWeekend, hn7]
    rfl
  have hnotin : holidays.contains n = false := by
    cases hcc : holidays.contains n
    · rfl
    · have hmem : n ∈ holidays := by simpa [List.contains] using hcc
      have := le_holidayBound holidays n hmem
      omega
  refine ⟨n - d, by rw [← hM]; omega, ?_⟩
  have hnd : d + (n - d) = n := by omega
  rw [hnd]
  show (isWeekend n || holidays.contains n) = false
  rw [hweek, hnotin]
  rfl

/-- C4: getNextWorkingDay terminates — the fuelled loop reaches its exit
within the budgeted fuel — and returns the first day on or after the
start that is neither a weekend day nor in the holiday list. -/
theorem C4_getNextWorkingDay_first (holidays : List Nat) (d : Nat) :
    d ≤ getNextWorkingDay holidays d ∧
    isNonWorkingDay holidays (getNextWorkingDay holidays d) = false ∧
    ∀ e, d ≤ e → e < getNextWorkingDay holidays d →
      isNonWorkingDay holidays e = true := by
  obtain ⟨k0, hk0, hw0⟩ := exists_working_le holidays d
  have hex : ∃ k, isNonWorkingDay holidays (d + k) = false := ⟨k0, hw0⟩
  have hkm := Nat.find_spec hex
  have hkmle : Nat.find hex ≤ k0 := Nat.find_min' hex hw0
  have hbefore : ∀ j, j < Nat.find hex →
      isNonWorkingDay holidays (d + j) = true := by
    intro j hj
    have hne := Nat.find_min hex hj
    cases hc : isNonWorkingDay holidays (d + j)
    · exact absurd hc hne
    · rfl
  have hres : getNextWorkingDay holidays d = d + Nat.find hex :=
    getNextWorkingDayFuel_reaches holidays (holidayBound holidays + 8) d
      (Nat.find hex) (by omega) hbefore hkm
  refine ⟨by rw [hres]; omega, by rw [hres]; exact hkm, ?_⟩
  intro e hde hlt
  rw [hres] at hlt
  have hlt2 : e - d < Nat.find hex := by omega
  have h2 := hbefore (e - d) hlt2
  have heq : d + (e - d) = e := by omega
  rw [heq] at h2
  exact h2

/-- C4 witness: starting on day 5 (a Saturday) with no holidays, day 5
itself is a non-working day strictly before the returned day. -/
theorem C4_getNextWorkingDay_first_witness :
    isNonWorkingDay [] 5 = true :=
  (C4_getNextWorkingDay_first [] 5).2.2 5 (by decide) (by decide)

/-- C7: on a day that is already working, getNextWorkingDay is the
identity. -/
theorem C7_getNextWorkingDay_idem (holidays : List Nat) (d : Nat)
    (h : isNonWorkingDay holidays d = false) :
    getNextWorkingDay holidays d = d := by
  show getNextWorkingDayFuel holidays (holidayBound holidays + 7 + 1) d = d
  simp [getNextWorkingDayFuel, h]

/-- C7 witness: day 0 (a Monday) with no holidays is returned unchanged. -/
theorem C7_getNextWorkingDay_idem_witness :
    getNextWorkingDay [] 0 = 0 :=
  C7_getNextWorkingDay_idem [] 0 (by decide)

/-- Body of the single-patient status update request (PUT /patients/id):
optional fields are present only for the matching target status. -/
structure StatusUpdateBody where
  status : String
  discharge_reason : Option String
  discharge_notes : Option String
  suspend_notes : Option String
deriving DecidableEq, Repr

/-- Embeds `handleStatusChange` of the patients page: validate the
required metadata for the target status, then either return without a
request (`none`) or send the assembled update body. JS falsiness of the
form fields is emptiness of the string. -/
def handleStatusChange (newStatus statusReason statusNotes : String) :
    Option StatusUpdateBody :=
  if newStatus = "dimesso" ∧ statusReason = "" then none
  else if newStatus = "sospeso" ∧ statusNotes = "" then none
  else if newStatus = "dimesso" ∧ statusReason = "altro" ∧ statusNotes = "" then none
  else some ⟨newStatus,
    if newStatus = "dimesso" then some statusReason else none,
    if newStatus = "dimesso" then some statusNotes else none,
    if newStatus = "sospeso" then some statusNotes else none⟩

/-- Body of the batch status update request (PUT /patients/batch/status). -/
structure BatchStatusBody where
  patient_ids : List Nat
  status : String
  discharge_reason : String
  discharge_notes : String
  suspend_notes : String
deriving DecidableEq, Repr

/-- Embeds `handleBatchStatusChange` of the patients page: empty
selection or missing metadata aborts without a request; otherwise the
body carries all metadata fields as the source does. -/
def handleBatchStatusChange (selectedPatients : List Nat)
    (newStatus statusReason statusNotes : String) : Option BatchStatusBody :=
  if selectedPatients.length = 0 then none
  else if newStatus = "dimesso" ∧ statusReason = "" then none
  else if newStatus = "sospeso" ∧ statusNotes = "" then none
  else some ⟨selectedPatients, newStatus, statusReason, statusNotes, statusNotes⟩

/-- C8: with target status dimesso and no discharge reason, or target
status sospeso and no note, neither the single nor the batch handler
issues a request; when a request is issued, the single body carries
discharge reason and notes for dimesso and the suspend note for sospeso,
and the batch body carries the corresponding fields. -/
theorem C8_statusChange_validation (reason notes : String) :
    (handleStatusChange "dimesso" "" notes = none) ∧
    (handleStatusChange "sospeso" reason "" = none) ∧
    (∀ ids, handleBatchStatusChange ids "dimesso" "" notes = none) ∧
    (∀ ids, handleBatchStatusChange ids "sospeso" reason "" = none) ∧
    (∀ b, handleStatusChange "dimesso" reason notes = some b →
      b.status = "dimesso" ∧ b.discharge_reason = some reason ∧
      b.discharge_notes = some notes ∧ b.suspend_notes = none) ∧
    (∀ b, handleStatusChange "sospeso" reason notes = some b →
      b.status = "sospeso" ∧ b.suspend_notes = some notes ∧
      b.discharge_reason = none ∧ b.discharge_notes = none) ∧
    (∀ ids b, handleBatchStatusChange ids "dimesso" reason notes = some b →
      b.patient_ids = ids ∧ b.status = "dimesso" ∧
      b.discharge_reason = reason ∧ b.discharge_notes = notes) ∧
    (∀ ids b, handleBatchStatusChange ids "sospeso" reason notes = some b →
      b.patient_ids = ids ∧ b.status = "sospeso" ∧ b.suspend_notes = notes) := by
  have hds : ("dimesso" : String) ≠ "sospeso" := by decide
  have hsd : ("sospeso" : String) ≠ "dimesso" := by decide
  refine ⟨?_, ?_, ?_, ?_, ?_, ?_, ?_, ?_⟩
  · simp [handleStatusChange]
  · simp [handleStatusChange, hsd]
  · intro ids
    rw [handleBatchStatusChange]
    split_ifs with h1 h2 h3 <;> simp_all
  · intro ids
    rw [handleBatchStatusChange]
    split_ifs with h1 h2 h3 <;> simp_all
  · intro b hb
    rw [handleStatusChange] at hb
    split_ifs at hb with h1 h2 h3
    all_goals try simp_all
    all_goals rw [← hb]; simp
  · intro b hb
    rw [handleStatusChange] at hb
    split_ifs at hb with h1 h2 h3
    all_goals try simp_all
    all_goals rw [← hb]; simp
  · intro ids b hb
    rw [handleBatchStatusChange] at hb
    split_ifs at hb with h1 h2 h3
    all_goals try simp_all
    all_goals rw [← hb]; simp
  · intro ids b hb
    rw [handleBatchStatusChange] at hb
    split_ifs at hb with h1 h2 h3
    all_goals try simp_all
    all_goals rw [← hb]; simp

/-- C8 witness: discharging without a reason issues no request. -/
theorem C8_statusChange_validation_witness :
    handleStatusChange "dimesso" "" "some notes" = none :=
  (C8_statusChange_validation "r" "some notes").1

/-- Lower-casing a string character by character, the counterpart of
the JS toLowerCase calls; written over the character list so that it
evaluates in the kernel. -/
def toLowerStr (s : String) : String :=
  ⟨s.data.map Char.toLower⟩

def isPrefixCS : List Char → List Char → Bool
  | [], _ => true
  | _ :: _, [] => false
  | a :: as, b :: bs => a = b && isPrefixCS as bs

/-- Contiguous-substring test on character lists, the counterpart of
the JS String.includes. -/
def hasSub (sub : List Char) : List Char → Bool
  | [] => sub.isEmpty
  | c :: cs => isPrefixCS sub (c :: cs) || hasSub sub cs

/-- JS s.includes(sub) on our string model. -/
def strIncludes (s sub : String) : Bool :=
  hasSub sub.data s.data

/-- Embeds the patient search effect of AgendaPage.jsx: with a query of
length at least one and a selected slot of type `slotTipo`, keep the
in-care patients whose given or family name contains the query
case-insensitively and whose type is the slot type or PICC_MED;
otherwise the suggestion list is empty. -/
def searchFilteredPatients (searchQuery slotTipo : String)
    (patients : List Patient) : List Patient :=
  if 1 ≤ searchQuery.length then
    patients.filter (fun p =>
      (strIncludes (toLowerStr p.nome) (toLowerStr searchQuery) ||
        strIncludes (toLowerStr p.cognome) (toLowerStr searchQuery)) &&
      (p.tipo == slotTipo || p.tipo == "PICC_MED"))
  else []

/-- C9: with a non-empty query, the suggestion list holds exactly the
patients of the given list whose lowercased given or family name
contains the lowercased query and whose type is the slot type or
PICC_MED. -/
theorem C9_searchFilteredPatients_spec (q slotTipo : String)
    (patients : List Patient) (p : Patient) (hq : 1 ≤ q.length) :
    p ∈ searchFilteredPatients q slotTipo patients ↔
      p ∈ patients ∧
      (strIncludes (toLowerStr p.nome) (toLowerStr q) = true ∨
        strIncludes (toLowerStr p.cognome) (toLowerStr q) = true) ∧
      (p.tipo = slotTipo ∨ p.tipo = "PICC_MED") := by
  rw [searchFilteredPatients, if_pos hq, List.mem_filter]
  simp [Bool.and_eq_true, Bool.or_eq_true, beq_iff_eq, and_assoc]

/-- C9 witness: a PICC_MED patient whose name contains the query is
suggested for a PICC slot. -/
theorem C9_searchFilteredPatients_spec_witness :
    (⟨1, "Anna", "Bruni", "PICC_MED"⟩ : Patient) ∈
      searchFilteredPatients "an" "PICC" [⟨1, "Anna", "Bruni", "PICC_MED"⟩] ↔
      (⟨1, "Anna", "Bruni", "PICC_MED"⟩ : Patient) ∈
        [(⟨1, "Anna", "Bruni", "PICC_MED"⟩ : Patient)] ∧
      (strIncludes (toLowerStr "Anna") (toLowerStr "an") = true ∨
        strIncludes (toLowerStr "Bruni") (toLowerStr "an") = true) ∧
      (("PICC_MED" : String) = "PICC" ∨ ("PICC_MED" : String) = "PICC_MED") :=
  C9_searchFilteredPatients_spec "an" "PICC" [⟨1, "Anna", "Bruni", "PICC_MED"⟩]
    ⟨1, "Anna", "Bruni", "PICC_MED"⟩ (by decide)

/-- Embeds the roster filter callback of the patients page: reject on a
failed name search when the query is non-empty, then reject by the type
filter, where PICC and MED accept PICC_MED as well and only the
PICC_MED filter is exact. -/
def rosterKeeps (searchQuery typeFilter : String) (p : Patient) : Bool :=
  if searchQuery ≠ "" ∧
      ¬(strIncludes (toLowerStr p.nome) (toLowerStr searchQuery) = true ∨
        strIncludes (toLowerStr p.cognome) (toLowerStr searchQuery) = true) then
    false
  else if typeFilter ≠ "all" ∧ typeFilter = "PICC" ∧
      p.tipo ≠ "PICC" ∧ p.tipo ≠ "PICC_MED" then false
  else if typeFilter ≠ "all" ∧ typeFilter = "MED" ∧
      p.tipo ≠ "MED" ∧ p.tipo ≠ "PICC_MED" then false
  else if typeFilter ≠ "all" ∧ typeFilter = "PICC_MED" ∧
      p.tipo ≠ "PICC_MED" then false
  else true

/-- Embeds `filteredPatients` of the patients page for the active tab. -/
def filteredPatientsRoster (searchQuery typeFilter : String)
    (tab : List Patient) : List Patient :=
  tab.filter (rosterKeeps searchQuery typeFilter)

/-- The search side of the roster filter: an empty query matches
everything, otherwise a lowercased name must contain the query. -/
def rosterSearchOk (q : String) (p : Patient) : Prop :=
  q = "" ∨ strIncludes (toLowerStr p.nome) (toLowerStr q) = true ∨
    strIncludes (toLowerStr p.cognome) (toLowerStr q) = true

theorem rosterKeeps_PICC_iff (q : String) (p : Patient) :
    rosterKeeps q "PICC" p = true ↔
      rosterSearchOk q p ∧ (p.tipo = "PICC" ∨ p.tipo = "PICC_MED") := by
  have h1 : ("PICC" : String) ≠ "all" := by decide
  have h2 : ("PICC" : String) ≠ "MED" := by decide
  have h3 : ("PICC" : String) ≠ "PICC_MED" := by decide
  rw [rosterSearchOk]
  simp only [rosterKeeps, h1, h2, h3]
  split_ifs with hs ht <;> simp <;> tauto

theorem rosterKeeps_MED_iff (q : String) (p : Patient) :
    rosterKeeps q "MED" p = true ↔
      rosterSearchOk q p ∧ (p.tipo = "MED" ∨ p.tipo = "PICC_MED") := by
  have h1 : ("MED" : String) ≠ "all" := by decide
  have h2 : ("MED" : String) ≠ "PICC" := by decide
  have h3 : ("MED" : String) ≠ "PICC_MED" := by decide
  rw [rosterSearchOk]
  simp only [rosterKeeps, h1, h2, h3]
  split_ifs with hs ht <;> simp <;> tauto

theorem rosterKeeps_PICCMED_iff (q : String) (p : Patient) :
    rosterKeeps q "PICC_MED" p = true ↔
      rosterSearchOk q p ∧ p.tipo = "PICC_MED" := by
  have h1 : ("PICC_MED" : String) ≠ "all" := by decide
  have h2 : ("PICC_MED" : String) ≠ "PICC" := by decide
  have h3 : ("PICC_MED" : String) ≠ "MED" := by decide
  rw [rosterSearchOk]
  simp only [rosterKeeps, h1, h2, h3]
  split_ifs with hs ht <;> simp <;> tauto

/-- C10: the roster type filter is by eligibility — filter PICC keeps
tab patients of type PICC or PICC_MED that match the search, filter MED
keeps type MED or PICC_MED, and only filter PICC_MED requires the type
to be exactly PICC_MED. -/
theorem C10_rosterTypeFilter_eligibility (q : String) (tab : List Patient)
    (p : Patient) :
    (p ∈ filteredPatientsRoster q "PICC" tab ↔
      p ∈ tab ∧ rosterSearchOk q p ∧ (p.tipo = "PICC" ∨ p.tipo = "PICC_MED")) ∧
    (p ∈ filteredPatientsRoster q "MED" tab ↔
      p ∈ tab ∧ rosterSearchOk q p ∧ (p.tipo = "MED" ∨ p.tipo = "PICC_MED")) ∧
    (p ∈ filteredPatientsRoster q "PICC_MED" tab ↔
      p ∈ tab ∧ rosterSearchOk q p ∧ p.tipo = "PICC_MED") := by
  refine ⟨?_, ?_, ?_⟩
  · rw [filteredPatientsRoster, List.mem_filter, rosterKeeps_PICC_iff]
  · rw [filteredPatientsRoster, List.mem_filter, rosterKeeps_MED_iff]
  · rw [filteredPatientsRoster, List.mem_filter, rosterKeeps_PICCMED_iff]

end Clinic
